import Mathlib

/-!
Verification development for the KOKKOS per-particle data-management subsystem
of LAMMPS (`src/KOKKOS/atom_kokkos.cpp`).

The development shallowly embeds the operations of `AtomKokkos`:
the dual host/device field store (`sync` / `modified`), the spatial sort
engine (`sort`, `sort_device`), the capacity manager (`grow`), and the
custom-field registry (`add_custom` / `remove_custom`).

Code of `AtomKokkos` itself is translated from the source file.  Collaborators
that the source file only calls (the record-layout collaborator
`AtomVecKokkos::sync` / `AtomVecKokkos::modified`, the Kokkos `BinSort`
permutation, `Atom::setup_sort_bins`, `MemoryKokkos::grow_kokkos`) are
modelled from the specification, as marked on each definition.
-/

namespace LammpsKK

/-- Execution space selector, mirroring the `ExecutionSpace` enum
(`Host` / `Device`) used by `AtomKokkos::sync` and `AtomKokkos::modified`. -/
inductive ExecSpace where
  | Host : ExecSpace
  | Device : ExecSpace
deriving DecidableEq, Repr

/-- One named field of the dual-field store: a host-resident copy, a
device-resident copy, and the per-side modified (dirtiness) flags. -/
structure DualField where
  host : List Int
  dev : List Int
  hostModified : Bool
  devModified : Bool
deriving DecidableEq, Repr

/-- The dual-field store: one `DualField` per bitmask bit position.  A field
group (mask) selects the fields whose bit is set in the mask. -/
def Store : Type := Nat → DualField

/-- Modelled from the spec: the record-layout collaborator's per-field sync
(`AtomVecKokkos::sync`, not under `src/`): if the *other* side is marked
modified, copy that side's data to the target side and clear the other
side's modified flag; otherwise leave the field unchanged. -/
def syncField (space : ExecSpace) (fld : DualField) : DualField :=
  match space with
  | .Host =>
      if fld.devModified then
        { fld with host := fld.dev, devModified := false }
      else fld
  | .Device =>
      if fld.hostModified then
        { fld with dev := fld.host, hostModified := false }
      else fld

/-- Modelled from the spec: the record-layout collaborator's per-field
modified declaration (`AtomVecKokkos::modified`, not under `src/`): mark the
given side's copy as authoritative/dirty. -/
def modifiedField (space : ExecSpace) (fld : DualField) : DualField :=
  match space with
  | .Host => { fld with hostModified := true }
  | .Device => { fld with devModified := true }

/-- Modelled from the spec: `AtomVecKokkos::sync(space, mask)` applied to the
whole store — sync every field whose bit is selected by the mask. -/
def avecSync (space : ExecSpace) (mask : Nat) (s : Store) : Store :=
  fun b => if Nat.testBit mask b then syncField space (s b) else s b

/-- Modelled from the spec: `AtomVecKokkos::modified(space, mask)` applied to
the whole store — mark every field whose bit is selected by the mask. -/
def avecModified (space : ExecSpace) (mask : Nat) (s : Store) : Store :=
  fun b => if Nat.testBit mask b then modifiedField space (s b) else s b

/-- `AtomKokkos::sync(space, mask)` (source lines 120–125): when the target
side is `Device` and the auto-sync policy is enabled, first mark the host
side modified for the group, then delegate to the collaborator's sync. -/
def atomSync (autoSync : Bool) (space : ExecSpace) (mask : Nat) (s : Store) : Store :=
  let s1 := if space = ExecSpace.Device ∧ autoSync then avecModified .Host mask s else s
  avecSync space mask s1

/-- `AtomKokkos::modified(space, mask)` (source lines 129–134): delegate to
the collaborator's modified declaration; when the side is `Device` and the
auto-sync policy is enabled, immediately sync the host side afterwards. -/
def atomModified (autoSync : Bool) (space : ExecSpace) (mask : Nat) (s : Store) : Store :=
  let s1 := avecModified space mask s
  if space = ExecSpace.Device ∧ autoSync then avecSync .Host mask s1 else s1

/-- A concrete two-field store used to instantiate theorems on a
closed input. -/
def exStore : Store :=
  fun b => if b = 0 then ⟨[1, 2], [3, 4], false, false⟩ else ⟨[5], [6], false, true⟩

theorem avecSync_host_apply (mask : Nat) (s : Store) (b : Nat) :
    avecSync .Host mask s b =
      if Nat.testBit mask b then syncField .Host (s b) else s b := rfl

theorem syncField_host_of_not_devModified (fld : DualField)
    (h : fld.devModified = false) : syncField .Host fld = fld := by
  simp [syncField, h]

theorem devModified_syncField_host (fld : DualField) :
    (syncField .Host fld).devModified = false := by
  by_cases h : fld.devModified <;> simp [syncField, h]

/-- C2: `modified(Device, G)` followed by `sync(Host, G)` leaves the host
copy of every field in `G` equal to the device copy as it stood at the
moment of the `modified` call, for any setting of the auto-sync policy
(the device copy itself is also unchanged by the round trip). -/
theorem modified_device_then_sync_host_roundtrip
    (autoSync : Bool) (mask : Nat) (s : Store) (b : Nat)
    (hb : Nat.testBit mask b = true) :
    (atomSync autoSync .Host mask (atomModified autoSync .Device mask s) b).host
        = (s b).dev ∧
    (atomSync autoSync .Host mask (atomModified autoSync .Device mask s) b).dev
        = (s b).dev := by
  cases autoSync with
  | false =>
      simp [atomSync, atomModified, avecSync, avecModified, hb,
        syncField, modifiedField]
  | true =>
      simp [atomSync, atomModified, avecSync, avecModified, hb,
        syncField, modifiedField]

/-- Closed-input instantiation of the C2 round-trip theorem. -/
theorem modified_device_then_sync_host_roundtrip_witness :
    (atomSync true .Host 5 (atomModified true .Device 5 exStore) 0).host
        = (exStore 0).dev ∧
    (atomSync true .Host 5 (atomModified true .Device 5 exStore) 0).dev
        = (exStore 0).dev :=
  modified_device_then_sync_host_roundtrip true 5 exStore 0 (by decide)

/-- C9: `sync(Host, G)` is idempotent — a second `sync(Host, G)` with no
intervening `modified` leaves the store exactly as the first call left it,
for every field group and any setting of the auto-sync policy. -/
theorem sync_host_idempotent (autoSync : Bool) (mask : Nat) (s : Store) :
    atomSync autoSync .Host mask (atomSync autoSync .Host mask s)
      = atomSync autoSync .Host mask s := by
  funext b
  show avecSync .Host mask (avecSync .Host mask s) b = avecSync .Host mask s b
  by_cases hb : Nat.testBit mask b
  · simp only [avecSync, hb, if_pos]
    exact syncField_host_of_not_devModified _ (devModified_syncField_host (s b))
  · simp [avecSync, hb]

/-- C5: the auto-sync policy side effects of `AtomKokkos::sync` and
`AtomKokkos::modified`.  With auto-sync enabled: `modified(Device, G)`
triggers an immediate reciprocal sync to host (the host copy of each field
in `G` picks up the device value and the device's modified flag ends
cleared), and `sync(Device, G)` first marks the host side modified, so each
field in `G` ends with the device copy equal to the prior host copy.  With
auto-sync disabled, or with side `Host`, both operations reduce to the bare
collaborator calls — no extra sync or flag propagation occurs. -/
theorem auto_sync_policy
    (autoSync : Bool) (space : ExecSpace) (mask : Nat) (s : Store) (b : Nat)
    (hb : Nat.testBit mask b = true) :
    ((atomModified true .Device mask s b).host = (s b).dev ∧
     (atomModified true .Device mask s b).devModified = false) ∧
    (atomSync true .Device mask s b).dev = (s b).host ∧
    (atomModified false space mask s = avecModified space mask s ∧
     atomSync false space mask s = avecSync space mask s) ∧
    (atomModified autoSync .Host mask s = avecModified .Host mask s ∧
     atomSync autoSync .Host mask s = avecSync .Host mask s) := by
  refine ⟨⟨?_, ?_⟩, ?_, ⟨?_, ?_⟩, ⟨?_, ?_⟩⟩
  · simp [atomModified, avecSync, avecModified, hb, syncField, modifiedField]
  · simp [atomModified, avecSync, avecModified, hb, syncField, modifiedField]
  · simp [atomSync, avecSync, avecModified, hb, syncField, modifiedField]
  · simp [atomModified]
  · simp [atomSync]
  · simp [atomModified]
  · simp [atomSync]

/-- Closed-input instantiation of the C5 auto-sync policy theorem. -/
theorem auto_sync_policy_witness :
    ((atomModified true .Device 3 exStore 1).host = (exStore 1).dev ∧
     (atomModified true .Device 3 exStore 1).devModified = false) ∧
    (atomSync true .Device 3 exStore 1).dev = (exStore 1).host ∧
    (atomModified false .Device 3 exStore = avecModified .Device 3 exStore ∧
     atomSync false .Device 3 exStore = avecSync .Device 3 exStore) ∧
    (atomModified true .Host 3 exStore = avecModified .Host 3 exStore ∧
     atomSync true .Host 3 exStore = avecSync .Host 3 exStore) :=
  auto_sync_policy true .Device 3 exStore 1 (by decide)

/-- Which sort path `AtomKokkos::sort` takes: the classic host (reference)
path or the device (parallel) path. -/
inductive SortPath where
  | host : SortPath
  | device : SortPath
deriving DecidableEq, Repr

/-- Control state consulted by `AtomKokkos::sort` (source lines 155–182):
the sticky `sort_classic` flag, the `sort_device` capability flag of each
fix with atom-based arrays (`atom->extra_grow`), the MPI rank `me`, and the
number of warnings this process has emitted. -/
structure SortCtl where
  sort_classic : Bool
  fixSupports : List Bool
  me : Nat
  warnings : Nat
deriving DecidableEq, Repr

/-- One invocation of `AtomKokkos::sort` (source lines 155–182), returning
the updated control state and the path taken.  When `sort_classic` is
unset and some fix lacks device-sort support, a warning is emitted on rank
0, `sort_classic` is set, and the host path is taken; once `sort_classic`
is set the capability check is skipped entirely. -/
def sortStep (s : SortCtl) : SortCtl × SortPath :=
  if s.sort_classic = false ∧ s.fixSupports.all (fun b => b) = false then
    ({ s with
        warnings := if s.me = 0 then s.warnings + 1 else s.warnings,
        sort_classic := true }, .host)
  else if s.sort_classic then (s, .host)
  else (s, .device)

/-- Iterate `sortStep` (subsequent sort cycles), keeping only the state. -/
def sortN : Nat → SortCtl → SortCtl
  | 0, s => s
  | n + 1, s => sortN n (sortStep s).1

theorem sortStep_of_classic (s : SortCtl) (h : s.sort_classic = true) :
    sortStep s = (s, .host) := by
  simp [sortStep, h]

theorem sortN_of_classic (n : Nat) (s : SortCtl) (h : s.sort_classic = true) :
    sortN n s = s := by
  induction n with
  | zero => rfl
  | succ k ih => rw [sortN, sortStep_of_classic s h]; exact ih

/-- C4: when a device sort is attempted (`sort_classic` unset) while some
fix with atom-based arrays lacks device-sort support, the engine takes the
host path this cycle and every later cycle (it never retries the device
path), and rank 0 emits exactly one warning over the whole run. -/
theorem sort_fallback_sticky
    (s : SortCtl) (n : Nat)
    (hme : s.me = 0)
    (hc : s.sort_classic = false)
    (hf : s.fixSupports.all (fun b => b) = false) :
    (sortStep s).2 = .host ∧
    (sortStep s).1.sort_classic = true ∧
    (sortStep s).1.warnings = s.warnings + 1 ∧
    (sortStep (sortN n (sortStep s).1)).2 = .host ∧
    (sortN n (sortStep s).1).warnings = s.warnings + 1 := by
  have hstep : sortStep s =
      ({ s with warnings := s.warnings + 1, sort_classic := true }, .host) := by
    simp [sortStep, hc, hf, hme]
  have hclassic : (sortStep s).1.sort_classic = true := by rw [hstep]
  have hiter : sortN n (sortStep s).1 = (sortStep s).1 :=
    sortN_of_classic n _ hclassic
  refine ⟨by rw [hstep], hclassic, by rw [hstep], ?_, ?_⟩
  · rw [hiter, sortStep_of_classic _ hclassic]
  · rw [hiter, hstep]

/-- Closed-input instantiation of the C4 sticky-fallback theorem. -/
theorem sort_fallback_sticky_witness :
    (sortStep ⟨false, [true, false], 0, 0⟩).2 = .host ∧
    (sortStep ⟨false, [true, false], 0, 0⟩).1.sort_classic = true ∧
    (sortStep ⟨false, [true, false], 0, 0⟩).1.warnings = 0 + 1 ∧
    (sortStep (sortN 3 (sortStep ⟨false, [true, false], 0, 0⟩).1)).2 = .host ∧
    (sortN 3 (sortStep ⟨false, [true, false], 0, 0⟩).1).warnings = 0 + 1 :=
  sort_fallback_sticky ⟨false, [true, false], 0, 0⟩ 3 rfl rfl (by decide)

/-- Bitmask constant selecting the special-bonds field group.  Modelled from
the spec and the `atom_masks.h` header (not under `src/`); only the bit
position distinguishes it from other groups. -/
def SPECIAL_MASK : Nat := 2 ^ 14

/-- State touched by `AtomKokkos::grow` (source lines 237–247): the
special-bonds field's host and device buffers (one entry per row), the
target capacity `nmax`, and a count of `grow_pointers` notifications sent
to the record-layout collaborator. -/
structure SpecialState where
  nmax : Nat
  hostBuf : List Int
  devBuf : List Int
  growPointersCalls : Nat
deriving DecidableEq, Repr

/-- `AtomKokkos::grow(mask)` (source lines 237–247): when the mask selects
the special-bonds group, the old buffers are destroyed
(`MemoryKokkos::destroy_kokkos`) and fresh buffers of capacity `nmax` are
allocated (`MemoryKokkos::grow_kokkos` on the destroyed view — modelled
from the spec as zero-initialized storage, since `grow_kokkos` is not under
`src/`), and the layout collaborator is notified via `grow_pointers`; any
other mask leaves the state untouched. -/
def grow (mask : Nat) (s : SpecialState) : SpecialState :=
  if mask &&& SPECIAL_MASK ≠ 0 then
    { s with
        hostBuf := List.replicate s.nmax 0,
        devBuf := List.replicate s.nmax 0,
        growPointersCalls := s.growPointersCalls + 1 }
  else s

/-- A concrete pre-grow state: capacity 1 (below `nmax = 2`), with row 0 of
the special-bonds field holding the value 5 on both sides. -/
def exGrow : SpecialState := ⟨2, [5], [5], 0⟩

/-- C3 counterexample: the claim fails on the code in two ways at concrete
inputs.  First, growing the special-bonds group does **not** preserve the
contents of previously existing rows: row 0 held 5 before the grow and
holds 0 afterwards (the buffers are destroyed before reallocation).
Second, for a group other than the special-bonds group (here mask 1, the
position group) whose capacity is below `nmax`, `grow` performs no
reallocation at all — the state is unchanged. -/
theorem grow_claim_counterexample :
    (grow SPECIAL_MASK exGrow).hostBuf.getD 0 7 = 0 ∧
    exGrow.hostBuf.getD 0 7 = 5 ∧
    ¬ (grow SPECIAL_MASK exGrow).hostBuf.getD 0 7 = exGrow.hostBuf.getD 0 7 ∧
    grow 1 exGrow = exGrow := by
  refine ⟨by decide, by decide, by decide, by decide⟩

/-- C3 amended: `AtomKokkos::grow` handles only the special-bonds field
group.  When the mask selects that group, both host and device buffers are
reallocated to capacity `nmax` with every row (pre-existing and new) in the
default zero state, and the layout collaborator is notified once via
`grow_pointers` so it can refresh cached raw pointers; when the mask does
not select that group, `grow` is a no-op. -/
theorem grow_special_only (mask : Nat) (s : SpecialState) :
    (mask &&& SPECIAL_MASK ≠ 0 →
      (grow mask s).hostBuf = List.replicate s.nmax 0 ∧
      (grow mask s).devBuf = List.replicate s.nmax 0 ∧
      (grow mask s).nmax = s.nmax ∧
      (grow mask s).growPointersCalls = s.growPointersCalls + 1) ∧
    (mask &&& SPECIAL_MASK = 0 → grow mask s = s) := by
  constructor
  · intro h
    simp [grow, h]
  · intro h
    simp [grow, h]

/-- Closed-input instantiation of the amended C3 theorem, covering both the
special-bonds mask and a non-special mask. -/
theorem grow_special_only_witness :
    ((SPECIAL_MASK &&& SPECIAL_MASK ≠ 0 →
      (grow SPECIAL_MASK exGrow).hostBuf = List.replicate exGrow.nmax 0 ∧
      (grow SPECIAL_MASK exGrow).devBuf = List.replicate exGrow.nmax 0 ∧
      (grow SPECIAL_MASK exGrow).nmax = exGrow.nmax ∧
      (grow SPECIAL_MASK exGrow).growPointersCalls = exGrow.growPointersCalls + 1) ∧
    (SPECIAL_MASK &&& SPECIAL_MASK = 0 → grow SPECIAL_MASK exGrow = exGrow)) ∧
    ((1 &&& SPECIAL_MASK ≠ 0 →
      (grow 1 exGrow).hostBuf = List.replicate exGrow.nmax 0 ∧
      (grow 1 exGrow).devBuf = List.replicate exGrow.nmax 0 ∧
      (grow 1 exGrow).nmax = exGrow.nmax ∧
      (grow 1 exGrow).growPointersCalls = exGrow.growPointersCalls + 1) ∧
    (1 &&& SPECIAL_MASK = 0 → grow 1 exGrow = exGrow)) :=
  ⟨grow_special_only SPECIAL_MASK exGrow, grow_special_only 1 exGrow⟩

/-- One slot of the custom-field registry: the name pointer (`none` once
cleared), whether the per-atom storage pointer has been nulled, and whether
backing storage for the slot is still allocated (i.e. `memory->destroy` has
not been called on it). -/
structure Slot where
  name : Option String
  ptrNull : Bool
  allocated : Bool
deriving DecidableEq, Repr

/-- The slot value left behind by a `remove_custom` that destroys storage. -/
def freedSlot : Slot := { name := none, ptrNull := true, allocated := false }

/-- A freshly registered slot: named, live pointer, storage allocated. -/
def newSlot (nm : String) : Slot :=
  { name := some nm, ptrNull := false, allocated := true }

/-- The custom-field registry state of `AtomKokkos`: the four independent
kind/shape slot lists (`ivector` / `dvector` / `iarray` / `darray`, whose
lengths are the counters `nivector` / `ndvector` / `niarray` / `ndarray`)
plus the per-slot column counts of the two array kinds. -/
structure Registry where
  ivector : List Slot
  dvector : List Slot
  iarray : List Slot
  darray : List Slot
  icols : List Int
  dcols : List Int
deriving DecidableEq, Repr

/-- The registry with no custom fields. -/
def Registry.empty : Registry := ⟨[], [], [], [], [], []⟩

/-- `AtomKokkos::add_custom(name, flag, cols)` (source lines 255–301): the
four `flag` / `cols` branches each append a slot to their kind's list and
return the pre-append count as the new index; any other `flag` value takes
no branch, so no registration occurs and the returned `int` stays
uninitialized (modelled as `none`). -/
def add_custom (nm : String) (flag cols : Int) (s : Registry) :
    Option Nat × Registry :=
  if flag = 0 ∧ cols = 0 then
    (some s.ivector.length, { s with ivector := s.ivector ++ [newSlot nm] })
  else if flag = 1 ∧ cols = 0 then
    (some s.dvector.length, { s with dvector := s.dvector ++ [newSlot nm] })
  else if flag = 0 ∧ cols ≠ 0 then
    (some s.iarray.length,
      { s with iarray := s.iarray ++ [newSlot nm], icols := s.icols ++ [cols] })
  else if flag = 1 ∧ cols ≠ 0 then
    (some s.darray.length,
      { s with darray := s.darray ++ [newSlot nm], dcols := s.dcols ++ [cols] })
  else (none, s)

/-- `AtomKokkos::remove_custom(index, flag, cols)` (source lines 309–334):
clear the name and null the storage pointer at `index` in the kind's list,
destroying the backing storage for the integer-vector, integer-array and
real-array kinds; for the real-vector kind no `destroy` is issued — the
column's storage stays owned by the shared `k_dvector` dual view, only the
raw row pointer is nulled.  The lists never shrink. -/
def remove_custom (index : Nat) (flag cols : Int) (s : Registry) : Registry :=
  let dvSlot : Slot :=
    { name := none, ptrNull := true,
      allocated := (s.dvector.getD index freedSlot).allocated }
  if flag = 0 ∧ cols = 0 then
    { s with ivector := s.ivector.set index freedSlot }
  else if flag = 1 ∧ cols = 0 then
    { s with dvector := s.dvector.set index dvSlot }
  else if flag = 0 ∧ cols ≠ 0 then
    { s with iarray := s.iarray.set index freedSlot }
  else if flag = 1 ∧ cols ≠ 0 then
    { s with darray := s.darray.set index freedSlot }
  else s

/-- The slot list of the kind/shape space selected by `flag` and `cols`. -/
def spaceSlots (flag cols : Int) (s : Registry) : List Slot :=
  if cols = 0 then (if flag = 0 then s.ivector else s.dvector)
  else (if flag = 0 then s.iarray else s.darray)

/-- The number of slots ever issued in the selected kind/shape space. -/
def spaceLen (flag cols : Int) (s : Registry) : Nat :=
  (spaceSlots flag cols s).length

/-- A registry operation: registration or removal of a custom field. -/
inductive COp where
  | add (nm : String) (flag cols : Int) : COp
  | remove (index : Nat) (flag cols : Int) : COp
deriving DecidableEq, Repr

/-- Apply one registry operation. -/
def applyOp (op : COp) (s : Registry) : Registry :=
  match op with
  | .add nm flag cols => (add_custom nm flag cols s).2
  | .remove index flag cols => remove_custom index flag cols s

/-- Apply a sequence of registry operations, left to right. -/
def runOps (ops : List COp) (s : Registry) : Registry :=
  ops.foldl (fun s op => applyOp op s) s

theorem add_custom_fst (nm : String) (flag cols : Int) (s : Registry)
    (hf : flag = 0 ∨ flag = 1) :
    (add_custom nm flag cols s).1 = some (spaceLen flag cols s) := by
  rcases hf with hf | hf <;> subst hf <;>
    by_cases hc : cols = 0 <;>
      simp [add_custom, spaceLen, spaceSlots, hc]

theorem add_custom_spaceLen (nm : String) (flag cols : Int) (s : Registry)
    (hf : flag = 0 ∨ flag = 1) :
    spaceLen flag cols (add_custom nm flag cols s).2
      = spaceLen flag cols s + 1 := by
  rcases hf with hf | hf <;> subst hf <;>
    by_cases hc : cols = 0 <;>
      simp [add_custom, spaceLen, spaceSlots, hc]

theorem length_le_applyOp (op : COp) (s : Registry) :
    s.ivector.length ≤ (applyOp op s).ivector.length ∧
    s.dvector.length ≤ (applyOp op s).dvector.length ∧
    s.iarray.length ≤ (applyOp op s).iarray.length ∧
    s.darray.length ≤ (applyOp op s).darray.length := by
  cases op with
  | add nm flag cols =>
      simp only [applyOp, add_custom]
      split_ifs <;> simp
  | remove index flag cols =>
      simp only [applyOp, remove_custom]
      split_ifs <;> simp

theorem spaceLen_le_applyOp (flag cols : Int) (op : COp) (s : Registry) :
    spaceLen flag cols s ≤ spaceLen flag cols (applyOp op s) := by
  have h := length_le_applyOp op s
  unfold spaceLen spaceSlots
  split_ifs <;> tauto

theorem spaceLen_le_runOps (flag cols : Int) (ops : List COp) (s : Registry) :
    spaceLen flag cols s ≤ spaceLen flag cols (runOps ops s) := by
  induction ops generalizing s with
  | nil => exact Nat.le_refl _
  | cons op rest ih =>
      exact Nat.le_trans (spaceLen_le_applyOp flag cols op s) (ih (applyOp op s))

theorem spaceLen_remove (idx : Nat) (flag cols f2 c2 : Int) (s : Registry) :
    spaceLen f2 c2 (remove_custom idx flag cols s) = spaceLen f2 c2 s := by
  unfold spaceLen spaceSlots remove_custom
  split_ifs <;> simp

/-- C6: within each of the four kind/shape index spaces, indices returned
by `add_custom` strictly increase over the life of the registry.  A
registration returns the space's current slot count; after any sequence of
further operations a later registration in the same space returns the
then-current count, which strictly exceeds the earlier index; removing a
valid index never lets a later registration return that index again; and
the `q_extra` scenario returns `index + 1` for the second registration. -/
theorem custom_index_monotone
    (s : Registry) (f c : Int) (n1 n2 n3 : String)
    (ops1 ops2 : List COp) (idx : Nat)
    (hf : f = 0 ∨ f = 1)
    (hidx : idx < spaceLen f c s) :
    (add_custom n1 f c s).1 = some (spaceLen f c s) ∧
    ((add_custom n2 f c (runOps ops1 (add_custom n1 f c s).2)).1
        = some (spaceLen f c (runOps ops1 (add_custom n1 f c s).2)) ∧
      spaceLen f c s < spaceLen f c (runOps ops1 (add_custom n1 f c s).2)) ∧
    ((add_custom n3 f c (runOps ops2 (remove_custom idx f c s))).1
        = some (spaceLen f c (runOps ops2 (remove_custom idx f c s))) ∧
      idx < spaceLen f c (runOps ops2 (remove_custom idx f c s))) ∧
    ((add_custom "q_extra" 1 0 s).1 = some s.dvector.length ∧
      (add_custom "q_extra2" 1 0
          (remove_custom s.dvector.length 1 0 (add_custom "q_extra" 1 0 s).2)).1
        = some (s.dvector.length + 1)) := by
  have hdl : spaceLen 1 0 s = s.dvector.length := by
    simp [spaceLen, spaceSlots]
  refine ⟨add_custom_fst n1 f c s hf, ⟨add_custom_fst n2 f c _ hf, ?_⟩,
    ⟨add_custom_fst n3 f c _ hf, ?_⟩, ?_, ?_⟩
  · calc spaceLen f c s < spaceLen f c (add_custom n1 f c s).2 := by
          rw [add_custom_spaceLen n1 f c s hf]; exact Nat.lt_succ_self _
      _ ≤ spaceLen f c (runOps ops1 (add_custom n1 f c s).2) :=
          spaceLen_le_runOps f c ops1 _
  · calc idx < spaceLen f c s := hidx
      _ = spaceLen f c (remove_custom idx f c s) :=
          (spaceLen_remove idx f c f c s).symm
      _ ≤ spaceLen f c (runOps ops2 (remove_custom idx f c s)) :=
          spaceLen_le_runOps f c ops2 _
  · rw [add_custom_fst "q_extra" 1 0 s (Or.inr rfl), hdl]
  · rw [add_custom_fst "q_extra2" 1 0 _ (Or.inr rfl),
      spaceLen_remove _ 1 0 1 0 _, add_custom_spaceLen "q_extra" 1 0 s (Or.inr rfl), hdl]

/-- Closed-input instantiation of the C6 index-monotonicity theorem, with a
removal and a cross-space registration interleaved. -/
theorem custom_index_monotone_witness :
    (add_custom "a" 1 0 (add_custom "seed" 1 0 Registry.empty).2).1
        = some (spaceLen 1 0 (add_custom "seed" 1 0 Registry.empty).2) ∧
    ((add_custom "b" 1 0 (runOps [COp.remove 0 1 0]
          (add_custom "a" 1 0 (add_custom "seed" 1 0 Registry.empty).2).2)).1
        = some (spaceLen 1 0 (runOps [COp.remove 0 1 0]
          (add_custom "a" 1 0 (add_custom "seed" 1 0 Registry.empty).2).2)) ∧
      spaceLen 1 0 (add_custom "seed" 1 0 Registry.empty).2
        < spaceLen 1 0 (runOps [COp.remove 0 1 0]
          (add_custom "a" 1 0 (add_custom "seed" 1 0 Registry.empty).2).2)) ∧
    ((add_custom "c" 1 0 (runOps [COp.add "k" 0 0]
          (remove_custom 0 1 0 (add_custom "seed" 1 0 Registry.empty).2))).1
        = some (spaceLen 1 0 (runOps [COp.add "k" 0 0]
          (remove_custom 0 1 0 (add_custom "seed" 1 0 Registry.empty).2))) ∧
      0 < spaceLen 1 0 (runOps [COp.add "k" 0 0]
          (remove_custom 0 1 0 (add_custom "seed" 1 0 Registry.empty).2))) ∧
    ((add_custom "q_extra" 1 0 (add_custom "seed" 1 0 Registry.empty).2).1
        = some (add_custom "seed" 1 0 Registry.empty).2.dvector.length ∧
      (add_custom "q_extra2" 1 0
          (remove_custom (add_custom "seed" 1 0 Registry.empty).2.dvector.length 1 0
            (add_custom "q_extra" 1 0 (add_custom "seed" 1 0 Registry.empty).2).2)).1
        = some ((add_custom "seed" 1 0 Registry.empty).2.dvector.length + 1)) :=
  custom_index_monotone (add_custom "seed" 1 0 Registry.empty).2 1 0
    "a" "b" "c" [COp.remove 0 1 0] [COp.add "k" 0 0] 0
    (Or.inr rfl) (by decide)

theorem getD_set_self (l : List Slot) (i : Nat) (a d : Slot)
    (h : i < l.length) : (l.set i a).getD i d = a := by
  simp [List.getD_eq_getElem?_getD, List.getElem?_set_self', h]

/-- C7 counterexample: removing a real-vector custom field does **not**
destroy its backing storage.  Registering the field `"a"` in the empty
registry and removing it at index 0 clears the name and nulls the row
pointer, but the column's storage remains allocated (it is retained by the
shared `k_dvector` dual view; no `memory->destroy` is issued), refuting
"frees the field's backing storage" for the real-vector kind. -/
theorem remove_custom_dvector_counterexample :
    ((remove_custom 0 1 0 (add_custom "a" 1 0 Registry.empty).2).dvector.getD 0
        freedSlot).allocated = true ∧
    ¬ ((remove_custom 0 1 0 (add_custom "a" 1 0 Registry.empty).2).dvector.getD 0
        freedSlot).allocated = false ∧
    ((remove_custom 0 1 0 (add_custom "a" 1 0 Registry.empty).2).dvector.getD 0
        freedSlot).name = none ∧
    ((remove_custom 0 1 0 (add_custom "a" 1 0 Registry.empty).2).dvector.getD 0
        freedSlot).ptrNull = true := by
  refine ⟨by decide, by decide, by decide, by decide⟩

/-- C7 amended: for every registered custom field, `remove_custom` clears
the name slot at `index`, sets the storage pointer to a null state, and
leaves the length of the kind's slot list unchanged (no compaction); it
frees the backing storage for the integer-vector, integer-array and
real-array kinds, while for the real-vector kind the storage remains
allocated, owned by the shared device-mirrored `k_dvector` view. -/
theorem remove_custom_spec (s : Registry) (flag cols : Int) (idx : Nat)
    (hf : flag = 0 ∨ flag = 1)
    (hidx : idx < spaceLen flag cols s) :
    spaceLen flag cols (remove_custom idx flag cols s) = spaceLen flag cols s ∧
    ((spaceSlots flag cols (remove_custom idx flag cols s)).getD idx freedSlot).name
        = none ∧
    ((spaceSlots flag cols (remove_custom idx flag cols s)).getD idx freedSlot).ptrNull
        = true ∧
    ((spaceSlots flag cols (remove_custom idx flag cols s)).getD idx freedSlot).allocated
        = (if flag = 1 ∧ cols = 0 then
            ((spaceSlots flag cols s).getD idx freedSlot).allocated
          else false) := by
  refine ⟨spaceLen_remove idx flag cols flag cols s, ?_⟩
  rcases hf with hf | hf <;> subst hf <;>
    by_cases hc : cols = 0 <;>
      simp only [spaceLen, spaceSlots, remove_custom, hc] at hidx ⊢ <;>
        simp_all [getD_set_self, freedSlot]

/-- Closed-input instantiation of the amended C7 theorem for the
real-vector kind. -/
theorem remove_custom_spec_witness :
    spaceLen 1 0 (remove_custom 0 1 0 (add_custom "a" 1 0 Registry.empty).2)
        = spaceLen 1 0 (add_custom "a" 1 0 Registry.empty).2 ∧
    ((spaceSlots 1 0 (remove_custom 0 1 0 (add_custom "a" 1 0 Registry.empty).2)).getD 0
        freedSlot).name = none ∧
    ((spaceSlots 1 0 (remove_custom 0 1 0 (add_custom "a" 1 0 Registry.empty).2)).getD 0
        freedSlot).ptrNull = true ∧
    ((spaceSlots 1 0 (remove_custom 0 1 0 (add_custom "a" 1 0 Registry.empty).2)).getD 0
        freedSlot).allocated
        = (if (1 : Int) = 1 ∧ (0 : Int) = 0 then
            ((spaceSlots 1 0 (add_custom "a" 1 0 Registry.empty).2).getD 0
              freedSlot).allocated
          else false) :=
  remove_custom_spec (add_custom "a" 1 0 Registry.empty).2 1 0 0
    (Or.inr rfl) (by decide)

/-- C10: `add_custom` registers a field only for `flag = 0` or `flag = 1`;
any other flag value takes none of the four branches, so the registry is
unchanged in every kind/shape space and the returned index is the
uninitialized value (`none`). -/
theorem add_custom_invalid_flag (nm : String) (flag cols : Int) (s : Registry)
    (h0 : flag ≠ 0) (h1 : flag ≠ 1) :
    add_custom nm flag cols s = (none, s) := by
  simp [add_custom, h0, h1]

/-- Closed-input instantiation of the C10 invalid-flag theorem. -/
theorem add_custom_invalid_flag_witness :
    add_custom "x" 2 5 Registry.empty = (none, Registry.empty) :=
  add_custom_invalid_flag "x" 2 5 Registry.empty (by decide) (by decide)

/-- State consulted and updated by `AtomKokkos::sort_device` (source lines
186–231): the sort-scheduling counters, the bin-grid geometry, the owned
record count `nlocal`, the per-record spatial bin key (step 3 of the device
path — the 3D bin index computed from the position and the bin grid), and
every co-indexed per-record field (built-in and extension), each modelled
as a map from row index to value. -/
structure SortDeviceState where
  ntimestep : Nat
  sortfreq : Nat
  nextsort : Nat
  box_change : Bool
  extx : Nat
  exty : Nat
  extz : Nat
  binsize : Nat
  nbinx : Nat
  nbiny : Nat
  nbinz : Nat
  nlocal : Nat
  key : Nat → Nat
  fields : List (Nat → Int)

/-- Total bin count of the grid.  Modelled from the spec
(`Atom::setup_sort_bins` is not under `src/`): `nbins = nbinx·nbiny·nbinz`. -/
def nbins (s : SortDeviceState) : Nat := s.nbinx * s.nbiny * s.nbinz

/-- Modelled from the spec: `Atom::setup_sort_bins` (not under `src/`)
recomputes the bin counts from the domain bounding box and the target bin
size — extents divided by bin size, minimum 1 per axis. -/
def setupSortBins (s : SortDeviceState) : SortDeviceState :=
  { s with
      nbinx := max 1 (s.extx / s.binsize),
      nbiny := max 1 (s.exty / s.binsize),
      nbinz := max 1 (s.extz / s.binsize) }

/-- Modelled from the spec: the permutation produced by the Kokkos bin sort
(`Kokkos::BinSort`, not under `src/`) — record indices `[0, nlocal)` sorted
by bin key, ties broken by the sort implementation. -/
def sortPerm (nlocal : Nat) (key : Nat → Nat) : List Nat :=
  (List.range nlocal).mergeSort (fun i j => decide (key i ≤ key j))

/-- Modelled from the spec: applying a sort permutation to one co-indexed
field (`AtomVecKokkos::sort_kokkos` and the extension collaborators'
`sort_kokkos`, not under `src/`) — the post-sort value at new index `i` is
the pre-sort value at index `p[i]`; rows at or beyond `nlocal` (ghosts) are
not touched. -/
def gather (nlocal : Nat) (p : List Nat) (f : Nat → Int) : Nat → Int :=
  fun i => if i < nlocal then f (p.getD i i) else f i

/-- `AtomKokkos::sort_device` (source lines 186–231): schedule the next
sort timestep, re-setup the bin grid if the domain changed, skip the sort
entirely when the bin count is 1, and otherwise drive every co-indexed
field through the bin-sort permutation. -/
def sort_device (s : SortDeviceState) : SortDeviceState :=
  let s1 := { s with
      nextsort := s.ntimestep / s.sortfreq * s.sortfreq + s.sortfreq }
  let s2 := if s1.box_change then setupSortBins s1 else s1
  if nbins s2 = 1 then s2
  else
    let p := sortPerm s2.nlocal s2.key
    { s2 with fields := s2.fields.map (gather s2.nlocal p) }

/-- The all-zero field used as the `getD` default for field lists. -/
def zeroField : Nat → Int := fun _ => 0

theorem sortPerm_perm (n : Nat) (key : Nat → Nat) :
    (sortPerm n key).Perm (List.range n) :=
  List.mergeSort_perm _ _

theorem sortPerm_length (n : Nat) (key : Nat → Nat) :
    (sortPerm n key).length = n := by
  simpa using (sortPerm_perm n key).length_eq

theorem sortPerm_nodup (n : Nat) (key : Nat → Nat) :
    (sortPerm n key).Nodup :=
  (sortPerm_perm n key).nodup_iff.mpr (List.nodup_range n)

theorem sortPerm_mem_iff (n : Nat) (key : Nat → Nat) (x : Nat) :
    x ∈ sortPerm n key ↔ x < n := by
  rw [(sortPerm_perm n key).mem_iff, List.mem_range]

theorem getD_eq_get (l : List Nat) (j d : Nat) (h : j < l.length) :
    l.getD j d = l.get ⟨j, h⟩ := by
  simp [List.getD_eq_getElem?_getD, List.getElem?_eq_getElem h]

theorem sortPerm_bijOn (n : Nat) (key : Nat → Nat) :
    Set.BijOn (fun j => (sortPerm n key).getD j j)
      (Set.Iio n) (Set.Iio n) := by
  refine ⟨?_, ?_, ?_⟩
  · intro j hj
    rw [Set.mem_Iio] at hj
    have hj' : j < (sortPerm n key).length := by
      rw [sortPerm_length]; exact hj
    simp only [Set.mem_Iio]
    rw [getD_eq_get _ j j hj', ← sortPerm_mem_iff n key]
    exact List.mem_iff_get.mpr ⟨⟨j, hj'⟩, rfl⟩
  · intro a ha b hb hab
    rw [Set.mem_Iio] at ha hb
    have ha' : a < (sortPerm n key).length := by
      rw [sortPerm_length]; exact ha
    have hb' : b < (sortPerm n key).length := by
      rw [sortPerm_length]; exact hb
    have hab' : (sortPerm n key).getD a a = (sortPerm n key).getD b b := hab
    rw [getD_eq_get _ a a ha', getD_eq_get _ b b hb'] at hab'
    have := (sortPerm_nodup n key).get_inj_iff.mp hab'
    exact congrArg Fin.val this
  · intro y hy
    rw [Set.mem_Iio] at hy
    have hmem : y ∈ sortPerm n key := (sortPerm_mem_iff n key y).mpr hy
    obtain ⟨idx, hidx⟩ := List.mem_iff_get.mp hmem
    have hlen := sortPerm_length n key
    have hidx2 := idx.2
    have hlt : idx.1 < n := by omega
    refine ⟨idx.1, Set.mem_Iio.mpr hlt, ?_⟩
    show (sortPerm n key).getD idx.1 idx.1 = y
    rw [getD_eq_get _ idx.1 idx.1 idx.2]
    exact hidx

theorem sort_device_fields (s : SortDeviceState)
    (hbc : s.box_change = false) (hnb : nbins s ≠ 1) :
    (sort_device s).fields
      = s.fields.map (gather s.nlocal (sortPerm s.nlocal s.key)) := by
  have hnb3 : ¬ (s.nbinx * s.nbiny * s.nbinz = 1) := hnb
  simp only [sort_device, nbins, hbc, Bool.false_eq_true, if_false, hnb3,
    ite_false]

theorem getD_map_field (l : List (Nat → Int))
    (g : (Nat → Int) → (Nat → Int)) (fi : Nat) (h : fi < l.length) :
    (l.map g).getD fi zeroField = g (l.getD fi zeroField) := by
  simp [List.getD_eq_getElem?_getD, List.getElem?_eq_getElem, h,
    List.getElem?_map]

/-- C1: for a device sort that actually reorders (geometry unchanged,
non-degenerate bin grid), the permutation produced by the sort engine is a
bijection over `[0, nlocal)`, and after applying it every co-indexed field
simultaneously holds at new index `i` the pre-sort value of the record at
`permutation[i]` (the field list itself keeps its length, so built-in and
extension fields alike are driven through the same permutation). -/
theorem sort_device_permutation (s : SortDeviceState) (fi i : Nat)
    (hbc : s.box_change = false) (hnb : nbins s ≠ 1)
    (hfi : fi < s.fields.length) (hi : i < s.nlocal) :
    Set.BijOn (fun j => (sortPerm s.nlocal s.key).getD j j)
      (Set.Iio s.nlocal) (Set.Iio s.nlocal) ∧
    (sort_device s).fields.length = s.fields.length ∧
    (sort_device s).fields.getD fi zeroField i
      = s.fields.getD fi zeroField ((sortPerm s.nlocal s.key).getD i i) := by
  refine ⟨sortPerm_bijOn s.nlocal s.key, ?_, ?_⟩
  · rw [sort_device_fields s hbc hnb, List.length_map]
  · rw [sort_device_fields s hbc hnb, getD_map_field _ _ fi hfi]
    simp [gather, hi]

/-- A concrete device-sort state: three owned records, a non-degenerate
2×1×1 bin grid, a key that reverses the records, and one field. -/
def exSort : SortDeviceState :=
  { ntimestep := 7, sortfreq := 5, nextsort := 0, box_change := false,
    extx := 2, exty := 1, extz := 1, binsize := 1,
    nbinx := 2, nbiny := 1, nbinz := 1, nlocal := 3,
    key := fun i => 3 - i, fields := [fun i => Int.ofNat (10 * i)] }

/-- Closed-input instantiation of the C1 permutation theorem. -/
theorem sort_device_permutation_witness :
    Set.BijOn (fun j => (sortPerm exSort.nlocal exSort.key).getD j j)
      (Set.Iio exSort.nlocal) (Set.Iio exSort.nlocal) ∧
    (sort_device exSort).fields.length = exSort.fields.length ∧
    (sort_device exSort).fields.getD 0 zeroField 0
      = exSort.fields.getD 0 zeroField
          ((sortPerm exSort.nlocal exSort.key).getD 0 0) :=
  sort_device_permutation exSort 0 0 rfl (by decide) (by decide) (by decide)

/-- A concrete device-sort state with the degenerate 1×1×1 bin grid. -/
def exDegen : SortDeviceState :=
  { ntimestep := 12, sortfreq := 5, nextsort := 0, box_change := false,
    extx := 1, exty := 1, extz := 1, binsize := 2,
    nbinx := 1, nbiny := 1, nbinz := 1, nlocal := 2,
    key := fun i => i, fields := [fun i => Int.ofNat i, fun _ => 3] }

/-- C8: when the bin grid is degenerate (`nbinx = nbiny = nbinz = 1`, so
the total bin count is 1) and the domain geometry is unchanged, the device
sort performs no reordering for the cycle: every field is left exactly as
it was (the effective permutation is the identity) and `nlocal` is
unchanged. -/
theorem sort_device_degenerate (s : SortDeviceState)
    (hbc : s.box_change = false)
    (hx : s.nbinx = 1) (hy : s.nbiny = 1) (hz : s.nbinz = 1) :
    (sort_device s).fields = s.fields ∧
    (sort_device s).nlocal = s.nlocal := by
  constructor <;> simp [sort_device, nbins, hbc, hx, hy, hz]

/-- Closed-input instantiation of the C8 degenerate-grid theorem. -/
theorem sort_device_degenerate_witness :
    (sort_device exDegen).fields = exDegen.fields ∧
    (sort_device exDegen).nlocal = exDegen.nlocal :=
  sort_device_degenerate exDegen rfl rfl rfl rfl

end LammpsKK
